import Mathlib

/-!
# Verification of the CVRB Validation & Scoring Engine

Shallow embedding of the core logic of the CVRB benchmark harness:

* `Validator.compareResults` / `Validator.getAgreedAnswers` and the
  per-question runner `Validator._runSimulation`
  (src/server/src/CVRB/validate/validator.js);
* the solver scoring loop of `SolverController.solveWorld` and the
  leaderboard aggregation `calculateSolverStats` (including the Wilson
  confidence interval);
* the world quality metric `quality`
  (src/server/src/CVRB/helpers/quality.js).

JavaScript JSON values are modelled by the inductive type `Json`
(numbers as integers, which covers every value the claims touch);
JavaScript objects are modelled as insertion-ordered association lists,
JS property assignment by `setKey` (overwrite or append).  Untrusted
program execution inside the `vm` sandbox is not embeddable and is
abstracted as a function `Question → Except String Json` supplied by the
caller; everything downstream of it is translated verbatim.
-/

namespace CVRB

/-- JSON values as produced by the sandboxed simulations.  Object fields
are kept in insertion order, exactly as JavaScript objects preserve it. -/
inductive Json where
  | null : Json
  | bool : Bool → Json
  | num : Int → Json
  | str : String → Json
  | arr : List Json → Json
  | obj : List (String × Json) → Json

/-- Escaping of string content for `JSON.stringify` (quote, backslash and
the common control characters; other characters are kept as-is). -/
def escapeChar (c : Char) : String :=
  if c = '"' then "\\\""
  else if c = '\\' then "\\\\"
  else if c = '\n' then "\\n"
  else if c = '\t' then "\\t"
  else if c = '\r' then "\\r"
  else String.singleton c

def escapeString (s : String) : String :=
  String.join (s.toList.map escapeChar)

mutual

/-- Model of `JSON.stringify` on JSON-representable values: object keys
are emitted in insertion order, so key order is visible in the output. -/
def stringify : Json → String
  | Json.null => "null"
  | Json.bool true => "true"
  | Json.bool false => "false"
  | Json.num n => toString n
  | Json.str s => "\"" ++ escapeString s ++ "\""
  | Json.arr xs => "[" ++ String.intercalate "," (stringifyList xs) ++ "]"
  | Json.obj fs => "\x7b" ++ String.intercalate "," (stringifyFields fs) ++ "\x7d"

def stringifyList : List Json → List String
  | [] => []
  | x :: xs => stringify x :: stringifyList xs

def stringifyFields : List (String × Json) → List String
  | [] => []
  | (k, v) :: fs => ("\"" ++ escapeString k ++ "\":" ++ stringify v) :: stringifyFields fs

end

mutual

/-- Deep structural equality over normalized JSON, written from the
spec's words (§4.3): order-independent for object keys, order-dependent
for arrays.  This is the spec-side comparison that claim C2 attributes
to the code; the code itself compares `stringify` outputs. -/
def structEq : Json → Json → Bool
  | Json.null, Json.null => true
  | Json.bool a, Json.bool b => a == b
  | Json.num a, Json.num b => a == b
  | Json.str a, Json.str b => a == b
  | Json.arr xs, Json.arr ys => structEqList xs ys
  | Json.obj fs, Json.obj gs =>
      structEqFields fs gs && gs.all (fun p => (fs.lookup p.1).isSome)
  | _, _ => false

def structEqList : List Json → List Json → Bool
  | [], [] => true
  | x :: xs, y :: ys => structEq x y && structEqList xs ys
  | _, _ => false

def structEqFields : List (String × Json) → List (String × Json) → Bool
  | [], _ => true
  | (k, v) :: fs, gs =>
      (match gs.lookup k with
       | some w => structEq v w
       | none => false) && structEqFields fs gs

end

/-- JavaScript object property assignment `o[k] = v`: replace the value
in place when the key exists, otherwise append the new key at the end. -/
def setKey {α : Type} (l : List (String × α)) (k : String) (v : α) :
    List (String × α) :=
  if l.any (fun p => p.1 == k) then
    l.map (fun p => if p.1 = k then (k, v) else p)
  else l ++ [(k, v)]

/-! ## `Validator._runSimulation` (validator.js lines 23-121)

A question, as consumed by the runner.  The `parameters` object and the
optional `validator_fn` source are consumed only by the sandboxed
execution, which is abstracted below, so they are not carried here. -/

structure Question where
  id : String
  text : String

/-- One entry of the results object built by `_runSimulation`:
`{question, result}` on success, `{question, error}` on failure.  The
processed `parameters` echo is omitted (it is never read downstream). -/
structure RunEntry where
  question : String
  res : Except String Json

/-- The per-question body of `_runSimulation` (parameter preprocessing,
the `vm` execution of `validator_fn`, the `Simulation.run` fallback and
the timeout normalization) is effectful sandbox code; it is abstracted
as `runQ : Question → Except String Json`, where `Except.error` carries
the caught error's message (e.g. "Simulation timeout"). -/
def mkEntry (q : Question) (r : Except String Json) : RunEntry :=
  { question := q.text, res := r }

/-- The loop of `_runSimulation`: for each question, run the per-question
body inside its own try/catch and store `results[questionId]`. -/
def runSimulation (runQ : Question → Except String Json)
    (questions : List Question) : List (String × RunEntry) :=
  questions.foldl (fun results q => setKey results q.id (mkEntry q (runQ q))) []

/-! ## `Validator.compareResults` (validator.js lines 318-466) -/

/-- One element of `validatorResults`: either the whole validator failed
(`{validatorId, validatorModel, error}`) or it produced a results object
keyed by question id. -/
structure ValidatorRun where
  validatorId : Nat
  validatorModel : String
  results : Except String (List (String × RunEntry))

/-- One record pushed onto `questions[qid].validatorResults`: the
`outcome` is the validator's `result` value or its `error` message. -/
structure VRecord where
  validatorId : Nat
  validatorModel : String
  outcome : Except String Json
  matchesCreator : Bool

/-- The per-question comparison data `comparisonResults.questions[qid]`.
`creatorResult` is `creatorResult.result`, which is `undefined` (here
`none`) when the creator's run errored on this question. -/
structure QuestionComparison where
  question : String
  creatorResult : Option Json
  validatorResults : List VRecord
  agreement : Bool

/-- The inner loop of `compareResults` for one question id: walk the
validators, record per-validator outcome and match flag; `agreement`
starts `true` and is forced `false` by every record pushed with
`matches = false`, so it ends up true iff all records match.  A match is
`JSON.stringify(creator) === JSON.stringify(validator)`; when the
creator entry errored, `JSON.stringify(undefined)` is `undefined`, which
never equals the string produced for the validator's value. -/
def compareQuestion (qid : String) (ce : RunEntry)
    (validators : List ValidatorRun) : QuestionComparison :=
  let co : Option Json := ce.res.toOption
  let recs : List VRecord := validators.map (fun v =>
    match v.results with
    | Except.error e =>
        { validatorId := v.validatorId, validatorModel := v.validatorModel,
          outcome := Except.error e, matchesCreator := false }
    | Except.ok vres =>
        match vres.lookup qid with
        | none =>
            { validatorId := v.validatorId, validatorModel := v.validatorModel,
              outcome := Except.error "Question not processed", matchesCreator := false }
        | some ve =>
            match ve.res with
            | Except.error e =>
                { validatorId := v.validatorId, validatorModel := v.validatorModel,
                  outcome := Except.error e, matchesCreator := false }
            | Except.ok vv =>
                let m : Bool :=
                  match co with
                  | some cv => stringify cv == stringify vv
                  | none => false
                { validatorId := v.validatorId, validatorModel := v.validatorModel,
                  outcome := Except.ok vv, matchesCreator := m })
  { question := ce.question, creatorResult := co,
    validatorResults := recs, agreement := recs.all (fun r => r.matchesCreator) }

/-- `comparisonResults` together with the `validatorAgreement` summary
and the `this.success` flag set at the end of `compareResults`. -/
structure ComparisonResults where
  questions : List (String × QuestionComparison)
  total : Nat
  agreed : Nat
  percentage : Rat
  success : Bool

/-- `compareResults`: iterate over `Object.keys(this.creatorResults)`
(creator question ids only), build the per-question comparison, count
agreeing questions and set `success = (agreedQuestions === totalQuestions)`.
`percentage` is `(agreed / total) * 100` (JS produces NaN when
`total = 0`; rational division by zero yields 0 here — no claim touches
that case). -/
def compareResults (creatorResults : List (String × RunEntry))
    (validatorResults : List ValidatorRun) : ComparisonResults :=
  let questions := creatorResults.map
    (fun p => (p.1, compareQuestion p.1 p.2 validatorResults))
  let total := questions.length
  let agreed := questions.countP (fun p => p.2.agreement)
  { questions := questions, total := total, agreed := agreed,
    percentage := ((agreed : Rat) / (total : Rat)) * 100,
    success := agreed == total }

/-! ## `Validator.getAgreedAnswers` (validator.js lines 474-497) -/

structure AgreedAnswer where
  question : String
  expectedResult : Option Json

/-- `getAgreedAnswers(comparisonResults)`: `null` when no comparison
results were passed or when `this.success` is false; otherwise every
question id is mapped to `{question, expectedResult: creatorResult}`. -/
def getAgreedAnswers (success : Bool) (comparisonResults : Option ComparisonResults) :
    Option (List (String × AgreedAnswer)) :=
  match comparisonResults with
  | none => none
  | some c =>
      if success then
        some (c.questions.map (fun p =>
          (p.1, { question := p.2.question, expectedResult := p.2.creatorResult })))
      else none

/-! ## Solver scoring (`SolverController.solveWorld`) and leaderboard
aggregation (`calculateSolverStats`)

Both sites decide per-question correctness with the identical expression
`String(provided).trim().toLowerCase() === String(expected).trim().toLowerCase()`
after unwrapping an object-shaped answer's `value` field, so the
decision is embedded once as `isCorrect`. -/

mutual

/-- JavaScript `String(x)` conversion for JSON-representable values:
numbers and booleans print, strings pass through, `null` prints "null",
arrays join their elements with commas (`null` elements become empty),
plain objects print "[object Object]". -/
def jsString : Json → String
  | Json.null => "null"
  | Json.bool true => "true"
  | Json.bool false => "false"
  | Json.num n => toString n
  | Json.str s => s
  | Json.arr xs => String.intercalate "," (jsStringList xs)
  | Json.obj _ => "[object Object]"

def jsStringList : List Json → List String
  | [] => []
  | Json.null :: xs => "" :: jsStringList xs
  | x :: xs => jsString x :: jsStringList xs

end

/-- The whitespace test of `String.prototype.trim` (the characters that
occur in the data this code handles). -/
def isSpaceChar (c : Char) : Bool :=
  (c == ' ') || (c == '\t') || (c == '\n') || (c == '\r')

/-- `String.prototype.trim`: strip leading and trailing whitespace. -/
def trimChars (cs : List Char) : List Char :=
  ((cs.dropWhile isSpaceChar).reverse.dropWhile isSpaceChar).reverse

/-- `.trim().toLowerCase()` applied after `String(...)` (ASCII case map,
which covers the alphabet of the values compared here). -/
def normString (s : String) : String :=
  String.mk ((trimChars s.data).map Char.toLower)

/-- `if (provided && typeof provided === 'object' && 'value' in provided)
provided = provided.value;` — only a (truthy) plain object exposing a
`value` key is unwrapped; arrays have no `value` property and `null` is
falsy, so neither is unwrapped. -/
def unwrapProvided : Option Json → Option Json
  | some (Json.obj fs) =>
      match fs.lookup "value" with
      | some v => some v
      | none => some (Json.obj fs)
  | o => o

/-- The correctness decision shared by `solveWorld` (part_007 line 291)
and `calculateSolverStats` (part_008 lines 339-341):
`expected !== undefined && provided !== undefined &&
 String(provided).trim().toLowerCase() === String(expected).trim().toLowerCase()`.
`none` models an absent/undefined value on either side. -/
def isCorrect (expected provided0 : Option Json) : Bool :=
  let provided := unwrapProvided provided0
  match expected, provided with
  | some e, some p => normString (jsString p) == normString (jsString e)
  | _, _ => false

/-- A question of `world_info.questions` as read by the scoring code:
only the id and the five alternative expected-answer fields matter.
`none` models an absent field, `some Json.null` an explicit null. -/
structure WQuestion where
  id : String
  expectedAnswer : Option Json
  expected_result : Option Json
  expected_answer : Option Json
  answer : Option Json
  expected : Option Json

/-- JavaScript's nullish coalescing `a ?? b`: `b` exactly when `a` is
`undefined` (`none`) or `null` (`some Json.null`). -/
def nullishOr (a b : Option Json) : Option Json :=
  match a with
  | none => b
  | some Json.null => b
  | some v => some v

/-- `q.expectedAnswer ?? q.expected_result ?? q.expected_answer ??
q.answer ?? q.expected ?? null`. -/
def resolveExpected (q : WQuestion) : Json :=
  (nullishOr q.expectedAnswer (nullishOr q.expected_result
    (nullishOr q.expected_answer (nullishOr q.answer q.expected)))).getD Json.null

/-- The `expectedAnswers` map: `for q of questions: if (!q.id) continue;
expectedAnswers[q.id] = ...` — a falsy (empty) id is skipped. -/
def buildExpected (questions : List WQuestion) : List (String × Json) :=
  questions.foldl
    (fun acc q => if q.id = "" then acc else setKey acc q.id (resolveExpected q)) []

/-- One entry of the solver's output / of `raw_responses`: the model's
`answer` field (`none` when absent). -/
structure AnswerData where
  answer : Option Json

/-- `Math.round(x)` — round half towards positive infinity. -/
def jsRound (x : Rat) : Int := ⌊x + 1/2⌋

/-- The `results` object persisted by `solveWorld`. -/
structure SolveResults where
  total_questions : Nat
  total_correct_answers : Nat
  error_count : Int
  score_percentage : Int
  breakdown : List (String × Bool)

/-- The scoring block of `solveWorld` (part_007 lines 284-305): walk the
solver's output entries, decide correctness against `expectedAnswers`,
then `totalQuestions = worldQuestions.length` and
`scorePercentage = !totalQuestions ? 0 : Math.round((correct / totalQuestions) * 100)`. -/
def solveScore (worldQuestions : List WQuestion)
    (solverOutput : List (String × AnswerData)) : SolveResults :=
  let expectedAnswers := buildExpected worldQuestions
  let breakdown := solverOutput.map
    (fun p => (p.1, isCorrect (expectedAnswers.lookup p.1) p.2.answer))
  let correct := breakdown.countP (fun p => p.2)
  let totalQuestions := worldQuestions.length
  let score : Int :=
    if totalQuestions = 0 then 0
    else jsRound (((correct : Rat) / (totalQuestions : Rat)) * 100)
  { total_questions := totalQuestions, total_correct_answers := correct,
    error_count := (totalQuestions : Int) - (correct : Int),
    score_percentage := score, breakdown := breakdown }

/-- The body of the `raw_responses` loop of `calculateSolverStats`
(part_008 lines 325-347): a question id without an own property in
`expectedAnswers` is skipped (`continue`); otherwise `total_attempts`
is incremented and `correct_answers` when the answer is correct. -/
def countStep (expectedAnswers : List (String × Json)) (acc : Nat × Nat)
    (p : String × AnswerData) : Nat × Nat :=
  if (expectedAnswers.lookup p.1).isSome then
    (acc.1 + 1,
     acc.2 + (if isCorrect (expectedAnswers.lookup p.1) p.2.answer then 1 else 0))
  else acc

/-- Per-solution contribution to `(total_attempts, correct_answers)`. -/
def solutionCounts (questions : List WQuestion)
    (rawResponses : List (String × AnswerData)) : Nat × Nat :=
  rawResponses.foldl (countStep (buildExpected questions)) (0, 0)

/-! ## Wilson 95% confidence interval (part_008 lines 376-385) -/

/-- `center = (p + z²/(2n)) / (1 + z²/n)` with `z = 1.96`, `p = k/n`. -/
noncomputable def wilsonCenter (k n : Nat) : Real :=
  ((k : Real) / (n : Real) + (1.96 : Real) ^ 2 / (2 * (n : Real)))
    / (1 + (1.96 : Real) ^ 2 / (n : Real))

/-- `margin = z·sqrt(p(1-p)/n + z²/(4n²)) / (1 + z²/n)`. -/
noncomputable def wilsonMargin (k n : Nat) : Real :=
  ((1.96 : Real) * Real.sqrt (((k : Real) / (n : Real)) * (1 - (k : Real) / (n : Real)) / (n : Real)
      + (1.96 : Real) ^ 2 / (4 * (n : Real) ^ 2)))
    / (1 + (1.96 : Real) ^ 2 / (n : Real))

/-- `lower = Math.max(0, center - margin)`. -/
noncomputable def ciLower (k n : Nat) : Real :=
  max 0 (wilsonCenter k n - wilsonMargin k n)

/-- `upper = Math.min(1, center + margin)`. -/
noncomputable def ciUpper (k n : Nat) : Real :=
  min 1 (wilsonCenter k n + wilsonMargin k n)

/-! ## World quality metric (quality.js lines 22-54) -/

/-- `Math.max(...scores)` for the nonempty lists on which it is read. -/
def listMax : List Rat → Rat
  | [] => 0
  | x :: xs => xs.foldl max x

/-- `Math.min(...scores)`. -/
def listMin : List Rat → Rat
  | [] => 0
  | x :: xs => xs.foldl min x

/-- `pairSum` of the nested `i < j` loops: the sum of absolute gaps over
all unordered pairs. -/
def pairSumAbs : List Rat → Rat
  | [] => 0
  | x :: xs => (xs.map (fun y => |x - y|)).sum + pairSumAbs xs

/-- `pairCount` of the nested loops: the number of unordered pairs. -/
def pairCountFn : List Rat → Nat
  | [] => 0
  | _ :: xs => xs.length + pairCountFn xs

/-- `quality(scores, Q)`: 0 for fewer than two scores, otherwise
`clamp01((0.4·spread + 0.4·pair_avg + 0.2·distinct) / Q)`. -/
def quality (scores : List Rat) (Q : Rat) : Rat :=
  if scores.length = 0 then 0
  else if scores.length = 1 then 0
  else
    let top := listMax scores
    let bot := listMin scores
    let spread := top - bot
    let pairSum := pairSumAbs scores
    let pairCount := pairCountFn scores
    let pair_avg := if 0 < pairCount then pairSum / (pairCount : Rat) else 0
    let distinct : Rat := (scores.dedup.length : Rat) - 1
    let qualityRaw := ((0.4 : Rat) * spread + (0.4 : Rat) * pair_avg
      + (0.2 : Rat) * distinct) / Q
    max 0 (min 1 qualityRaw)

/-! ## Association-list lemmas about `setKey` and the runner loop -/

theorem lookup_map_replace {α : Type} (l : List (String × α)) (k k' : String) (v : α)
    (h : k' ≠ k) :
    (l.map (fun p => if p.1 = k' then (k', v) else p)).lookup k = l.lookup k := by
  induction l with
  | nil => rfl
  | cons p rest ih =>
    obtain ⟨a, b⟩ := p
    simp only [List.map_cons]
    by_cases hp : a = k'
    · rw [if_pos hp]
      have h1 : (k == k') = false := beq_eq_false_iff_ne.mpr (Ne.symm h)
      have h2 : (k == a) = false := by rw [hp]; exact h1
      simp only [List.lookup_cons, h1, h2]
      exact ih
    · rw [if_neg hp]
      simp only [List.lookup_cons]
      cases hk : k == a
      · exact ih
      · rfl

theorem lookup_append_single {α : Type} (l : List (String × α)) (k k' : String) (v : α)
    (h : k' ≠ k) : (l ++ [(k', v)]).lookup k = l.lookup k := by
  have h1 : (k == k') = false := beq_eq_false_iff_ne.mpr (Ne.symm h)
  have h2 : (([(k', v)] : List (String × α)).lookup k) = none := by
    simp only [List.lookup_cons, h1, List.lookup_nil]
  rw [List.lookup_append, h2, Option.or_none]

theorem lookup_setKey_self {α : Type} (l : List (String × α)) (k : String) (v : α) :
    (setKey l k v).lookup k = some v := by
  unfold setKey
  by_cases hany : l.any (fun p => p.1 == k) = true
  · rw [if_pos hany]
    induction l with
    | nil => simp at hany
    | cons p rest ih =>
      obtain ⟨a, b⟩ := p
      simp only [List.map_cons]
      by_cases hp : a = k
      · rw [if_pos hp]
        exact List.lookup_cons_self
      · rw [if_neg hp]
        have hrest : rest.any (fun p => p.1 == k) = true := by
          have ha : (a == k) = false := beq_eq_false_iff_ne.mpr hp
          simpa [List.any_cons, ha] using hany
        have hk : (k == a) = false := beq_eq_false_iff_ne.mpr (Ne.symm hp)
        simp only [List.lookup_cons, hk]
        exact ih hrest
  · rw [if_neg hany]
    have hnone : l.lookup k = none := by
      rw [List.lookup_eq_none_iff]
      intro p hp
      simp only [bne_iff_ne]
      intro he
      exact hany (List.any_eq_true.mpr ⟨p, hp, by simp [he.symm]⟩)
    rw [List.lookup_append, hnone]
    simp only [List.lookup_cons_self, Option.none_or]

theorem lookup_setKey_ne {α : Type} (l : List (String × α)) (k k' : String) (v : α)
    (h : k' ≠ k) : (setKey l k' v).lookup k = l.lookup k := by
  unfold setKey
  by_cases hany : l.any (fun p => p.1 == k') = true
  · rw [if_pos hany]
    exact lookup_map_replace l k k' v h
  · rw [if_neg hany]
    exact lookup_append_single l k k' v h

/-- Folding the runner loop over questions none of which has id `k`
leaves the entry for `k` untouched. -/
theorem lookup_runLoop_not_mem (runQ : Question → Except String Json)
    (qs : List Question) (acc : List (String × RunEntry)) (k : String)
    (h : ∀ q ∈ qs, q.id ≠ k) :
    (qs.foldl (fun results q => setKey results q.id (mkEntry q (runQ q))) acc).lookup k
      = acc.lookup k := by
  induction qs generalizing acc with
  | nil => rfl
  | cons q rest ih =>
    simp only [List.foldl_cons]
    rw [ih _ (fun r hr => h r (List.mem_cons_of_mem _ hr))]
    exact lookup_setKey_ne acc k q.id (mkEntry q (runQ q)) (h q (List.mem_cons_self _ _))

theorem lookup_runLoop_mem (runQ : Question → Except String Json)
    (qs : List Question) (acc : List (String × RunEntry)) (q : Question)
    (hnd : (qs.map Question.id).Nodup) (hq : q ∈ qs) :
    (qs.foldl (fun results q => setKey results q.id (mkEntry q (runQ q))) acc).lookup q.id
      = some (mkEntry q (runQ q)) := by
  induction qs generalizing acc with
  | nil => cases hq
  | cons q' rest ih =>
    simp only [List.map_cons, List.nodup_cons] at hnd
    rcases List.mem_cons.mp hq with hq' | hmem
    · subst hq'
      simp only [List.foldl_cons]
      have hnot : ∀ r ∈ rest, r.id ≠ q.id := by
        intro r hr he
        exact hnd.1 (he ▸ List.mem_map_of_mem Question.id hr)
      rw [lookup_runLoop_not_mem runQ rest _ q.id hnot]
      exact lookup_setKey_self acc q.id (mkEntry q (runQ q))
    · simp only [List.foldl_cons]
      exact ih _ hnd.2 hmem

/-! ## Claims about the validation engine -/

/-- C1: for every validation run, `success` is true iff every question's
`agreement` flag is true; `success` is literally the test
`agreedCount == total`, so there is no partial-success state. -/
theorem claim_c1_success_iff_all_agree (cr : List (String × RunEntry))
    (vr : List ValidatorRun) :
    ((compareResults cr vr).success
        = ((compareResults cr vr).agreed == (compareResults cr vr).total))
    ∧ ((compareResults cr vr).success = true ↔
        ∀ p ∈ (compareResults cr vr).questions, p.2.agreement = true) := by
  refine ⟨rfl, ?_⟩
  show ((compareResults cr vr).agreed == (compareResults cr vr).total) = true ↔ _
  rw [Nat.beq_eq_true_eq]
  exact List.countP_eq_length

/-- C2 counterexample: creator value `{"a":1,"b":2}` and validator value
`{"b":2,"a":1}` are structurally equal up to object-key order, yet the
comparison records `matches = false` (and the run fails), because the
code compares `JSON.stringify` outputs, which preserve key order. -/
theorem claim_c2_counterexample :
    structEq (Json.obj [("a", Json.num 1), ("b", Json.num 2)])
        (Json.obj [("b", Json.num 2), ("a", Json.num 1)]) = true
    ∧ ((compareResults
          [("q1", ⟨"Q1", Except.ok (Json.obj [("a", Json.num 1), ("b", Json.num 2)])⟩)]
          [⟨1, "V1", Except.ok
              [("q1", ⟨"Q1", Except.ok (Json.obj [("b", Json.num 2), ("a", Json.num 1)])⟩)]⟩]).questions.map
            (fun p => p.2.validatorResults.map (fun r => r.matchesCreator))) = [[false]]
    ∧ (compareResults
          [("q1", ⟨"Q1", Except.ok (Json.obj [("a", Json.num 1), ("b", Json.num 2)])⟩)]
          [⟨1, "V1", Except.ok
              [("q1", ⟨"Q1", Except.ok (Json.obj [("b", Json.num 2), ("a", Json.num 1)])⟩)]⟩]).success
        = false := by
  refine ⟨by decide, by decide, by decide⟩

/-- C2 as amended: for every question id in the creator's results and
every validator whose results contain a value for that id, the recorded
match flag is exact string equality of the two `JSON.stringify`
serializations — object key order (and array order) is significant. -/
theorem claim_c2_matches_is_stringify_equality
    (cr : List (String × RunEntry)) (vr : List ValidatorRun)
    (qid : String) (ce : RunEntry) (v : ValidatorRun)
    (vres : List (String × RunEntry)) (ve : RunEntry) (cv vv : Json)
    (hce : (qid, ce) ∈ cr) (hv : v ∈ vr)
    (hres : v.results = Except.ok vres)
    (hlook : vres.lookup qid = some ve)
    (hveres : ve.res = Except.ok vv)
    (hcres : ce.res = Except.ok cv) :
    (qid, compareQuestion qid ce vr) ∈ (compareResults cr vr).questions
    ∧ ({ validatorId := v.validatorId, validatorModel := v.validatorModel,
         outcome := Except.ok vv,
         matchesCreator := (stringify cv == stringify vv) } : VRecord)
        ∈ (compareQuestion qid ce vr).validatorResults := by
  constructor
  · exact List.mem_map.mpr ⟨(qid, ce), hce, rfl⟩
  · unfold compareQuestion
    simp only
    refine List.mem_map.mpr ⟨v, hv, ?_⟩
    rw [hres]
    simp only [hlook]
    rw [hveres]
    simp only [hcres, Except.toOption]

/-- C3: the agreed-answer set is all-or-nothing: after a validation,
`getAgreedAnswers` yields `null` whenever `success` is false, and when
`success` is true it maps every question id to an answer carrying the
creator's value for that question. -/
theorem claim_c3_agreed_answers_all_or_nothing (cr : List (String × RunEntry))
    (vr : List ValidatorRun) :
    ((compareResults cr vr).success = false →
      getAgreedAnswers (compareResults cr vr).success (some (compareResults cr vr)) = none)
    ∧ ((compareResults cr vr).success = true →
      getAgreedAnswers (compareResults cr vr).success (some (compareResults cr vr))
        = some ((compareResults cr vr).questions.map (fun p =>
            (p.1, ({ question := p.2.question,
                     expectedResult := p.2.creatorResult } : AgreedAnswer))))) := by
  constructor
  · intro h
    simp [getAgreedAnswers, h]
  · intro h
    simp [getAgreedAnswers, h]

theorem claim_c3_agreed_answers_all_or_nothing_witness :
    getAgreedAnswers
        (compareResults [("q1", ⟨"Q1", Except.ok (Json.num 4)⟩)]
          [⟨1, "V1", Except.error "No Simulation class found"⟩]).success
        (some (compareResults [("q1", ⟨"Q1", Except.ok (Json.num 4)⟩)]
          [⟨1, "V1", Except.error "No Simulation class found"⟩])) = none
    ∧ getAgreedAnswers
        (compareResults [("q1", ⟨"Q1", Except.ok (Json.num 4)⟩)]
          [⟨1, "V1", Except.ok [("q1", ⟨"Q1", Except.ok (Json.num 4)⟩)]⟩]).success
        (some (compareResults [("q1", ⟨"Q1", Except.ok (Json.num 4)⟩)]
          [⟨1, "V1", Except.ok [("q1", ⟨"Q1", Except.ok (Json.num 4)⟩)]⟩]))
      = some [("q1", ⟨"Q1", some (Json.num 4)⟩)] := by
  constructor
  · exact (claim_c3_agreed_answers_all_or_nothing _ _).1 (by decide)
  · exact (claim_c3_agreed_answers_all_or_nothing _ _).2 (by decide)

theorem claim_c2_matches_is_stringify_equality_witness :
    ((("q1", (⟨"Q1", Except.ok (Json.num 4)⟩ : RunEntry))
        ∈ [("q1", (⟨"Q1", Except.ok (Json.num 4)⟩ : RunEntry))])
      ∧ ((⟨1, "V1", Except.ok [("q1", ⟨"Q1", Except.ok (Json.num 5)⟩)]⟩ : ValidatorRun)
        ∈ [(⟨1, "V1", Except.ok [("q1", ⟨"Q1", Except.ok (Json.num 5)⟩)]⟩ : ValidatorRun)]))
    ∧ (({ validatorId := 1, validatorModel := "V1",
          outcome := Except.ok (Json.num 5),
          matchesCreator := (stringify (Json.num 4) == stringify (Json.num 5)) } : VRecord)
        ∈ (compareQuestion "q1" ⟨"Q1", Except.ok (Json.num 4)⟩
            [⟨1, "V1", Except.ok [("q1", ⟨"Q1", Except.ok (Json.num 5)⟩)]⟩]).validatorResults) := by
  refine ⟨⟨List.mem_singleton.mpr rfl, List.mem_singleton.mpr rfl⟩, ?_⟩
  exact (claim_c2_matches_is_stringify_equality
    [("q1", ⟨"Q1", Except.ok (Json.num 4)⟩)]
    [⟨1, "V1", Except.ok [("q1", ⟨"Q1", Except.ok (Json.num 5)⟩)]⟩]
    "q1" ⟨"Q1", Except.ok (Json.num 4)⟩
    ⟨1, "V1", Except.ok [("q1", ⟨"Q1", Except.ok (Json.num 5)⟩)]⟩
    [("q1", ⟨"Q1", Except.ok (Json.num 5)⟩)] ⟨"Q1", Except.ok (Json.num 5)⟩
    (Json.num 4) (Json.num 5)
    (List.mem_singleton.mpr rfl) (List.mem_singleton.mpr rfl)
    rfl rfl rfl rfl).2

/-- C8 counterexample: a question (`q2`) present only in a validator's
results and missing from the creator's results is ignored entirely —
the run still succeeds and no comparison record mentions it — instead
of counting as a disagreement as the claim states. -/
theorem claim_c8_counterexample :
    (compareResults
        [("q1", ⟨"Q1", Except.ok (Json.num 4)⟩)]
        [⟨1, "V1", Except.ok
            [("q1", ⟨"Q1", Except.ok (Json.num 4)⟩),
             ("q2", ⟨"Q2", Except.ok (Json.num 5)⟩)]⟩]).success = true
    ∧ ((compareResults
        [("q1", ⟨"Q1", Except.ok (Json.num 4)⟩)]
        [⟨1, "V1", Except.ok
            [("q1", ⟨"Q1", Except.ok (Json.num 4)⟩),
             ("q2", ⟨"Q2", Except.ok (Json.num 5)⟩)]⟩]).questions.map Prod.fst) = ["q1"] := by
  refine ⟨by decide, by decide⟩

/-- C8 as amended: a creator question absent from a validator's results
is recorded as an error "Question not processed" with `matches = false`,
making that question's `agreement` false; in the other direction a
question present only in a validator's results is ignored — the
comparison iterates creator question ids only, so the output's question
ids are exactly the creator's. -/
theorem claim_c8_missing_question_asymmetry
    (cr : List (String × RunEntry)) (vr : List ValidatorRun)
    (qid : String) (ce : RunEntry) (v : ValidatorRun)
    (vres : List (String × RunEntry))
    (hce : (qid, ce) ∈ cr) (hv : v ∈ vr)
    (hres : v.results = Except.ok vres)
    (hmiss : vres.lookup qid = none) :
    (qid, compareQuestion qid ce vr) ∈ (compareResults cr vr).questions
    ∧ ({ validatorId := v.validatorId, validatorModel := v.validatorModel,
         outcome := Except.error "Question not processed",
         matchesCreator := false } : VRecord)
        ∈ (compareQuestion qid ce vr).validatorResults
    ∧ (compareQuestion qid ce vr).agreement = false
    ∧ (compareResults cr vr).questions.map Prod.fst = cr.map Prod.fst := by
  have hrec : (⟨v.validatorId, v.validatorModel,
      Except.error "Question not processed", false⟩ : VRecord)
      ∈ (compareQuestion qid ce vr).validatorResults := by
    unfold compareQuestion
    simp only
    refine List.mem_map.mpr ⟨v, hv, ?_⟩
    rw [hres]
    simp only [hmiss]
  refine ⟨List.mem_map.mpr ⟨(qid, ce), hce, rfl⟩, hrec, ?_, ?_⟩
  · have : ¬((compareQuestion qid ce vr).validatorResults.all
        (fun r => r.matchesCreator) = true) := by
      intro hall
      have := List.all_eq_true.mp hall _ hrec
      simp at this
    have hagree : (compareQuestion qid ce vr).agreement
        = (compareQuestion qid ce vr).validatorResults.all (fun r => r.matchesCreator) := rfl
    rw [hagree]
    exact Bool.eq_false_iff.mpr (fun hc => this hc)
  · unfold compareResults
    simp only [List.map_map]
    rfl

theorem claim_c8_missing_question_asymmetry_witness :
    ((("q1", (⟨"Q1", Except.ok (Json.num 4)⟩ : RunEntry))
        ∈ [("q1", (⟨"Q1", Except.ok (Json.num 4)⟩ : RunEntry))])
      ∧ ((⟨1, "V1", Except.ok ([] : List (String × RunEntry))⟩ : ValidatorRun)
        ∈ [(⟨1, "V1", Except.ok ([] : List (String × RunEntry))⟩ : ValidatorRun)]))
    ∧ (compareQuestion "q1" ⟨"Q1", Except.ok (Json.num 4)⟩
        [⟨1, "V1", Except.ok ([] : List (String × RunEntry))⟩]).agreement = false := by
  refine ⟨⟨List.mem_singleton.mpr rfl, List.mem_singleton.mpr rfl⟩, ?_⟩
  exact (claim_c8_missing_question_asymmetry
    [("q1", ⟨"Q1", Except.ok (Json.num 4)⟩)]
    [⟨1, "V1", Except.ok ([] : List (String × RunEntry))⟩]
    "q1" ⟨"Q1", Except.ok (Json.num 4)⟩
    ⟨1, "V1", Except.ok ([] : List (String × RunEntry))⟩
    ([] : List (String × RunEntry))
    (List.mem_singleton.mpr rfl) (List.mem_singleton.mpr rfl)
    rfl rfl).2.2.1

/-- C9: in a question batch, each question's result entry is determined
solely by that question's own outcome: whatever the abstract runner
returns on the other questions (success, runtime error, timeout or
parameter-evaluation error), every question `q` of the batch ends up
with its own entry `{question: q.text, result|error: runQ q}` in the
results object. -/
theorem claim_c9_per_question_isolation
    (runQ : Question → Except String Json) (qs : List Question) (q : Question)
    (hnd : (qs.map Question.id).Nodup) (hq : q ∈ qs) :
    (runSimulation runQ qs).lookup q.id = some (mkEntry q (runQ q)) := by
  unfold runSimulation
  exact lookup_runLoop_mem runQ qs [] q hnd hq

theorem claim_c9_per_question_isolation_witness :
    (([⟨"q1", "first"⟩, ⟨"q2", "second"⟩] : List Question).map Question.id).Nodup
    ∧ ((⟨"q2", "second"⟩ : Question) ∈ ([⟨"q1", "first"⟩, ⟨"q2", "second"⟩] : List Question))
    ∧ (runSimulation
          (fun q => if q.id = "q1" then Except.error "Simulation timeout"
                    else Except.ok (Json.num 7))
          [⟨"q1", "first"⟩, ⟨"q2", "second"⟩]).lookup "q2"
        = some ⟨"second", Except.ok (Json.num 7)⟩ := by
  refine ⟨by decide, by simp, ?_⟩
  exact claim_c9_per_question_isolation
    (fun q => if q.id = "q1" then Except.error "Simulation timeout"
              else Except.ok (Json.num 7))
    [⟨"q1", "first"⟩, ⟨"q2", "second"⟩] ⟨"q2", "second"⟩
    (by decide) (by simp)

/-! ## Claims about solver scoring, leaderboard aggregation and quality -/

/-- Looking up a key of a key-preserving map of an association list with
distinct keys finds the image of that key's entry. -/
theorem lookup_map_value {β γ : Type} (l : List (String × β)) (f : String × β → γ)
    (k : String) (b : β) (hmem : (k, b) ∈ l) (hnd : (l.map Prod.fst).Nodup) :
    (l.map (fun p => (p.1, f p))).lookup k = some (f (k, b)) := by
  induction l with
  | nil => cases hmem
  | cons p rest ih =>
    obtain ⟨a, c⟩ := p
    simp only [List.map_cons, List.nodup_cons] at hnd
    rcases List.mem_cons.mp hmem with hh | hmem'
    · rw [← hh]
      simp only [List.map_cons, List.lookup_cons, beq_self_eq_true]
    · have hka : (k == a) = false := by
        refine beq_eq_false_iff_ne.mpr (fun he => ?_)
        exact hnd.1 (he ▸ (List.mem_map.mpr ⟨(k, b), hmem', rfl⟩))
      simp only [List.map_cons, List.lookup_cons, hka]
      exact ih hmem' hnd.2

/-- C4: the scored total always equals the world's question count, no
matter what the solver submitted (missing answers are counted, never
skipped); the score is `round(correct/total*100)` and degrades to `0`
when the total is zero. -/
theorem claim_c4_total_and_score (qs : List WQuestion)
    (out : List (String × AnswerData)) :
    (solveScore qs out).total_questions = qs.length
    ∧ (solveScore qs out).error_count
        = ((solveScore qs out).total_questions : Int)
          - ((solveScore qs out).total_correct_answers : Int)
    ∧ ((solveScore qs out).total_questions = 0 →
        (solveScore qs out).score_percentage = 0)
    ∧ (0 < (solveScore qs out).total_questions →
        (solveScore qs out).score_percentage
          = jsRound ((((solveScore qs out).total_correct_answers : Rat)
              / ((solveScore qs out).total_questions : Rat)) * 100)) := by
  refine ⟨rfl, rfl, ?_, ?_⟩
  · intro h
    simp only [solveScore] at h ⊢
    rw [if_pos h]
  · intro h
    simp only [solveScore] at h ⊢
    rw [if_neg (Nat.pos_iff_ne_zero.mp h)]

theorem claim_c4_total_and_score_witness :
    ((solveScore [⟨"q1", some (Json.num 4), none, none, none, none⟩]
        []).total_questions = 0 → False)
    ∧ (solveScore [⟨"q1", some (Json.num 4), none, none, none, none⟩]
        []).total_questions = 1
    ∧ (solveScore [⟨"q1", some (Json.num 4), none, none, none, none⟩]
        []).score_percentage
      = jsRound ((((solveScore [⟨"q1", some (Json.num 4), none, none, none, none⟩]
          []).total_correct_answers : Rat) / 1) * 100) := by
  refine ⟨by decide, by decide, ?_⟩
  exact (claim_c4_total_and_score
    [⟨"q1", some (Json.num 4), none, none, none, none⟩] []).2.2.2 (by decide)

/-- C5: each scored question's breakdown flag is exactly the normalized
string comparison of the provided answer (after unwrapping an
object-shaped answer's `value` field) against the expected answer; in
particular the string "4" matches the numeric expected answer 4. -/
theorem claim_c5_normalized_comparison (qs : List WQuestion)
    (out : List (String × AnswerData)) (qid : String) (d : AnswerData)
    (hmem : (qid, d) ∈ out) (hnd : (out.map Prod.fst).Nodup) :
    (solveScore qs out).breakdown.lookup qid
      = some (isCorrect ((buildExpected qs).lookup qid) d.answer)
    ∧ isCorrect (some (Json.num 4)) (some (Json.str "4")) = true := by
  constructor
  · exact lookup_map_value out
      (fun p => isCorrect ((buildExpected qs).lookup p.1) p.2.answer) qid d hmem hnd
  · decide

theorem claim_c5_normalized_comparison_witness :
    (("q1", (⟨some (Json.str "4")⟩ : AnswerData))
        ∈ [("q1", (⟨some (Json.str "4")⟩ : AnswerData))])
    ∧ (([("q1", (⟨some (Json.str "4")⟩ : AnswerData))].map Prod.fst).Nodup)
    ∧ (solveScore [⟨"q1", some (Json.num 4), none, none, none, none⟩]
        [("q1", ⟨some (Json.str "4")⟩)]).breakdown.lookup "q1"
      = some (isCorrect
          ((buildExpected [⟨"q1", some (Json.num 4), none, none, none, none⟩]).lookup "q1")
          (some (Json.str "4"))) := by
  refine ⟨List.mem_singleton.mpr rfl, by decide, ?_⟩
  exact (claim_c5_normalized_comparison
    [⟨"q1", some (Json.num 4), none, none, none, none⟩]
    [("q1", ⟨some (Json.str "4")⟩)] "q1" ⟨some (Json.str "4")⟩
    (List.mem_singleton.mpr rfl) (by decide)).1

/-- The first component of the aggregation never exceeds the number of
entries processed so far plus the accumulator. -/
theorem countStep_fold_le (ea : List (String × Json))
    (rs : List (String × AnswerData)) (acc : Nat × Nat) :
    (rs.foldl (countStep ea) acc).1 ≤ acc.1 + rs.length := by
  induction rs generalizing acc with
  | nil => simp
  | cons p rest ih =>
    simp only [List.foldl_cons, List.length_cons]
    have hstep : (countStep ea acc p).1 ≤ acc.1 + 1 := by
      unfold countStep
      by_cases h : ((ea.lookup p.1).isSome : Prop)
      · rw [if_pos h]
      · rw [if_neg h]
        omega
    calc (rest.foldl (countStep ea) (countStep ea acc p)).1
        ≤ (countStep ea acc p).1 + rest.length := ih _
      _ ≤ acc.1 + 1 + rest.length := by omega
      _ = acc.1 + (rest.length + 1) := by omega

/-- C10: in the leaderboard aggregation, an answer whose question id is
not among the world's questions is skipped entirely — prepending such an
entry changes neither `total_attempts` nor `correct_answers` — so the
attempt count can be smaller than the number of submitted answers. -/
theorem claim_c10_unknown_question_skipped (qs : List WQuestion)
    (rs : List (String × AnswerData)) (qid : String) (rd : AnswerData)
    (h : (buildExpected qs).lookup qid = none) :
    solutionCounts qs ((qid, rd) :: rs) = solutionCounts qs rs
    ∧ (solutionCounts qs ((qid, rd) :: rs)).1 ≤ rs.length := by
  have hstep : countStep (buildExpected qs) (0, 0) (qid, rd) = (0, 0) := by
    unfold countStep
    rw [if_neg (by simp [h])]
  constructor
  · unfold solutionCounts
    simp only [List.foldl_cons, hstep]
  · unfold solutionCounts
    simp only [List.foldl_cons, hstep]
    simpa using countStep_fold_le (buildExpected qs) rs (0, 0)

theorem claim_c10_unknown_question_skipped_witness :
    (buildExpected [⟨"q1", some (Json.num 4), none, none, none, none⟩]).lookup "zz" = none
    ∧ solutionCounts [⟨"q1", some (Json.num 4), none, none, none, none⟩]
        (("zz", ⟨some (Json.num 1)⟩) :: [("q1", ⟨some (Json.num 4)⟩)])
      = solutionCounts [⟨"q1", some (Json.num 4), none, none, none, none⟩]
        [("q1", ⟨some (Json.num 4)⟩)]
    ∧ (solutionCounts [⟨"q1", some (Json.num 4), none, none, none, none⟩]
        (("zz", ⟨some (Json.num 1)⟩) :: [("q1", ⟨some (Json.num 4)⟩)])).1 ≤ 1 := by
  refine ⟨rfl, ?_, ?_⟩
  · exact (claim_c10_unknown_question_skipped
      [⟨"q1", some (Json.num 4), none, none, none, none⟩]
      [("q1", ⟨some (Json.num 4)⟩)] "zz" ⟨some (Json.num 1)⟩ rfl).1
  · exact (claim_c10_unknown_question_skipped
      [⟨"q1", some (Json.num 4), none, none, none, none⟩]
      [("q1", ⟨some (Json.num 4)⟩)] "zz" ⟨some (Json.num 1)⟩ rfl).2

/-- Twice the pair count of the nested loops is `n·(n-1)`. -/
theorem pairCountFn_eq (l : List Rat) :
    2 * pairCountFn l = l.length * (l.length - 1) := by
  induction l with
  | nil => rfl
  | cons x xs ih =>
    simp only [pairCountFn, List.length_cons, Nat.add_sub_cancel]
    cases hl : xs.length with
    | zero =>
      rw [hl] at ih
      simp at ih
      simp [ih]
    | succ m =>
      rw [hl] at ih
      rw [Nat.add_sub_cancel] at ih
      have h2 : (m + 1 + 1) * (m + 1) = (m + 1) * m + 2 * (m + 1) := by ring
      rw [h2, ← ih]
      omega

/-- C7: with at least two scores, `quality` is
`clamp01((0.4·spread + 0.4·pairAvg + 0.2·distinct)/Q)` where `spread` is
max − min, `pairAvg` the mean of all pairwise absolute gaps (sum divided
by `n(n-1)/2`), `distinct` the number of distinct values minus one; with
fewer than two scores it is 0; and `quality [20, 80] 100 = 0.482`. -/
theorem claim_c7_quality_formula (scores : List Rat) (Q : Rat) :
    (scores.length < 2 → quality scores Q = 0)
    ∧ (2 ≤ scores.length →
        quality scores Q = max 0 (min 1
          (((0.4 : Rat) * (listMax scores - listMin scores)
            + (0.4 : Rat) * (pairSumAbs scores * 2
                / ((scores.length : Rat) * ((scores.length : Rat) - 1)))
            + (0.2 : Rat) * ((scores.dedup.length : Rat) - 1)) / Q)))
    ∧ quality [(20 : Rat), 80] 100 = 241/500 := by
  refine ⟨?_, ?_, ?_⟩
  · intro h
    have h01 : scores.length = 0 ∨ scores.length = 1 := by omega
    simp only [quality]
    rcases h01 with h0 | h1
    · rw [if_pos h0]
    · rw [if_neg (by omega), if_pos h1]
  · intro h
    simp only [quality]
    rw [if_neg (by omega), if_neg (by omega)]
    have hc := pairCountFn_eq scores
    have hpos : 0 < pairCountFn scores := by
      have : 2 ≤ scores.length * (scores.length - 1) := by
        have h2 : 2 ≤ scores.length := h
        have : 1 ≤ scores.length - 1 := by omega
        calc 2 = 2 * 1 := by omega
          _ ≤ scores.length * (scores.length - 1) := by
              exact Nat.mul_le_mul h2 this
      omega
    rw [if_pos hpos]
    have hcast : ((pairCountFn scores : Rat))
        = (scores.length : Rat) * ((scores.length : Rat) - 1) / 2 := by
      have h1 : ((2 * pairCountFn scores : Nat) : Rat)
          = ((scores.length * (scores.length - 1) : Nat) : Rat) :=
        congrArg (fun m : Nat => (m : Rat)) hc
      push_cast [Nat.cast_sub (by omega : 1 ≤ scores.length)] at h1
      linarith
    have hne : (scores.length : Rat) * ((scores.length : Rat) - 1) ≠ 0 := by
      have h2 : (2 : Rat) ≤ (scores.length : Rat) := by exact_mod_cast h
      have : (1 : Rat) ≤ (scores.length : Rat) - 1 := by linarith
      positivity
    have hdiv : pairSumAbs scores / ((pairCountFn scores : Nat) : Rat)
        = pairSumAbs scores * 2
          / ((scores.length : Rat) * ((scores.length : Rat) - 1)) := by
      rw [hcast, div_div_eq_mul_div]
    rw [hdiv]
  · have hnd : ([20, 80] : List Rat).Nodup := by norm_num
    have hd : ([20, 80] : List Rat).dedup = [20, 80] := List.dedup_eq_self.mpr hnd
    norm_num [quality, listMax, listMin, pairSumAbs, pairCountFn, hd, max_def,
      min_def, abs]

theorem claim_c7_quality_formula_witness :
    (([] : List Rat).length < 2) ∧ quality ([] : List Rat) 100 = 0 := by
  exact ⟨by decide, (claim_c7_quality_formula ([] : List Rat) 100).1 (by decide)⟩

/-- The Wilson point estimate always lies within `margin` of the
interval's center: `|p - center| ≤ margin`. -/
theorem wilson_center_close (p N z : Real) (hN : 0 < N) (hp0 : 0 ≤ p)
    (hp1 : p ≤ 1) (hz : 0 < z) :
    |p - (p + z ^ 2 / (2 * N)) / (1 + z ^ 2 / N)|
      ≤ z * Real.sqrt (p * (1 - p) / N + z ^ 2 / (4 * N ^ 2)) / (1 + z ^ 2 / N) := by
  have hD : (0 : Real) < 1 + z ^ 2 / N := by positivity
  have hpq : (0 : Real) ≤ p * (1 - p) := mul_nonneg hp0 (by linarith)
  have hnum : p - (p + z ^ 2 / (2 * N)) / (1 + z ^ 2 / N)
      = (z ^ 2 / N) * (p - 1 / 2) / (1 + z ^ 2 / N) := by
    field_simp
    ring
  rw [hnum, abs_div, abs_of_pos hD]
  refine (div_le_div_iff_of_pos_right hD).mpr ?_
  have hid : z ^ 2 * (p * (1 - p) / N + z ^ 2 / (4 * N ^ 2))
        - (z ^ 2 / N * (p - 1 / 2)) ^ 2
      = z ^ 2 * (p * (1 - p)) / N + z ^ 4 * (p * (1 - p)) / N ^ 2 := by
    field_simp
    ring
  have t1 : (0 : Real) ≤ z ^ 2 * (p * (1 - p)) / N :=
    div_nonneg (mul_nonneg (sq_nonneg z) hpq) hN.le
  have t2 : (0 : Real) ≤ z ^ 4 * (p * (1 - p)) / N ^ 2 :=
    div_nonneg (mul_nonneg (pow_nonneg hz.le 4) hpq) (by positivity)
  have hsq : (z ^ 2 / N * (p - 1 / 2)) ^ 2
      ≤ z ^ 2 * (p * (1 - p) / N + z ^ 2 / (4 * N ^ 2)) := by linarith
  have h1 : |z ^ 2 / N * (p - 1 / 2)|
      = Real.sqrt ((z ^ 2 / N * (p - 1 / 2)) ^ 2) := (Real.sqrt_sq_eq_abs _).symm
  have h2 : z * Real.sqrt (p * (1 - p) / N + z ^ 2 / (4 * N ^ 2))
      = Real.sqrt (z ^ 2 * (p * (1 - p) / N + z ^ 2 / (4 * N ^ 2))) := by
    rw [Real.sqrt_mul (sq_nonneg z), Real.sqrt_sq hz.le]
  rw [h1, h2]
  exact Real.sqrt_le_sqrt hsq

/-- C6: for `n > 0` attempts with `k ≤ n` correct, the clamped Wilson
interval computed by the leaderboard code brackets the point estimate:
`0 ≤ ciLower ≤ k/n ≤ ciUpper ≤ 1`. -/
theorem claim_c6_wilson_bounds (k n : Nat) (hn : 0 < n) (hk : k ≤ n) :
    0 ≤ ciLower k n ∧ ciLower k n ≤ (k : Real) / (n : Real)
    ∧ (k : Real) / (n : Real) ≤ ciUpper k n ∧ ciUpper k n ≤ 1 := by
  have hN : (0 : Real) < (n : Real) := by exact_mod_cast hn
  have hp0 : (0 : Real) ≤ (k : Real) / (n : Real) := by positivity
  have hp1 : (k : Real) / (n : Real) ≤ 1 :=
    div_le_one_of_le₀ (by exact_mod_cast hk) hN.le
  have hkey := wilson_center_close ((k : Real) / (n : Real)) (n : Real) 1.96
    hN hp0 hp1 (by norm_num)
  have hc : wilsonCenter k n
      = ((k : Real) / (n : Real) + (1.96 : Real) ^ 2 / (2 * (n : Real)))
        / (1 + (1.96 : Real) ^ 2 / (n : Real)) := rfl
  have hm : wilsonMargin k n
      = (1.96 : Real) * Real.sqrt (((k : Real) / (n : Real))
            * (1 - (k : Real) / (n : Real)) / (n : Real)
          + (1.96 : Real) ^ 2 / (4 * (n : Real) ^ 2))
        / (1 + (1.96 : Real) ^ 2 / (n : Real)) := rfl
  rw [← hc, ← hm] at hkey
  obtain ⟨h1, h2⟩ := abs_le.mp hkey
  refine ⟨le_max_left _ _, ?_, ?_, min_le_left _ _⟩
  · exact max_le hp0 (by linarith)
  · exact le_min hp1 (by linarith)

theorem claim_c6_wilson_bounds_witness :
    0 < 4 ∧ 1 ≤ 4
    ∧ (0 ≤ ciLower 1 4 ∧ ciLower 1 4 ≤ ((1 : Nat) : Real) / ((4 : Nat) : Real)
        ∧ ((1 : Nat) : Real) / ((4 : Nat) : Real) ≤ ciUpper 1 4 ∧ ciUpper 1 4 ≤ 1) :=
  ⟨by decide, by decide, claim_c6_wilson_bounds 1 4 (by decide) (by decide)⟩

end CVRB
